import Mathlib

/-
Verification of the gpsagent TruePosition GPS agent.

Shallow embedding of the dispatcher state machine (trueposition/state.py),
the serial transport framing (trueposition/uart.py), the NMEA output sink
(trueposition/nmea_writer.py) and the ephemeris output sink
(trueposition/sat_writer.py).

Conventions used throughout:
  * Python machine integers are arbitrary precision, so `Int`/`Nat` are exact.
  * Fallible Python code (IndexError from indexing past the end of a field
    list, ValueError from int()/float(), TypeError from arithmetic on the
    `{}` placeholders) is modelled with `Except String`; an error aborts the
    dispatcher loop, exactly as an uncaught exception kills the message
    handler task.
  * Python float VALUES are never compared or inspected by any property we
    verify, so they are kept opaque: a `FloatVal` records the source token
    (and whether the code divided it by 1e6), while parse success/failure is
    modelled exactly.
  * logging.info lines that report state transitions are modelled as values
    (the `logs` component); logging.debug lines are not observable effects
    for any property here and are omitted.
-/

namespace GpsAgent

/-! ## Models of Python string primitives -/

/-- Characters treated as whitespace by Python `str.strip()` (ASCII subset;
the device protocol is ASCII). -/
def pySpace (c : Char) : Bool :=
  c = ' ' || c = '\t' || c = '\n' || c = '\r' || c = '\x0b' || c = '\x0c'

/-- Python `str.strip()` on a character list. -/
def pyStrip (l : List Char) : List Char :=
  ((l.dropWhile pySpace).reverse.dropWhile pySpace).reverse

/-- Python `str.strip()`. -/
def pyStripStr (s : String) : String :=
  String.mk (pyStrip s.data)

/-- Split a character list at every occurrence of `sep`, keeping empty
pieces: the behaviour of Python `str.split(sep)` with an explicit one
character separator (runs of separators are NOT collapsed). -/
def splitCharList (sep : Char) : List Char → List (List Char)
  | [] => [[]]
  | c :: cs =>
    if c = sep then [] :: splitCharList sep cs
    else
      match splitCharList sep cs with
      | [] => [[c]]
      | s :: ss => (c :: s) :: ss

/-- Python `msg.split(' ')`. -/
def pySplit (s : String) : List String :=
  (splitCharList ' ' s.data).map String.mk

/-- Decimal value of a digit list. -/
def natOfDigits (l : List Char) : Nat :=
  l.foldl (fun a c => a * 10 + (c.toNat - 48)) 0

/-- Python `int(s)`: surrounding whitespace stripped, optional sign, then a
nonempty run of decimal digits.  (Underscore digit separators and non-ASCII
digits accepted by CPython are not modelled; no device message uses them.) -/
def pyInt (s : String) : Option Int :=
  match pyStrip s.data with
  | '+' :: ds => if !ds.isEmpty && ds.all (·.isDigit) then some (Int.ofNat (natOfDigits ds)) else none
  | '-' :: ds => if !ds.isEmpty && ds.all (·.isDigit) then some (-(Int.ofNat (natOfDigits ds))) else none
  | ds => if !ds.isEmpty && ds.all (·.isDigit) then some (Int.ofNat (natOfDigits ds)) else none

/-- Python `float(s)` acceptance: whitespace stripped, optional sign, digits
with at most one decimal point and at least one digit.  (Exponent, inf and
nan forms are not modelled; the device emits plain decimals, and no verified
property inspects a float value.) -/
def pyFloatOK (s : String) : Bool :=
  let t := pyStrip s.data
  let t := match t with
           | '+' :: r => r
           | '-' :: r => r
           | r => r
  match splitCharList '.' t with
  | [a] => !a.isEmpty && a.all (·.isDigit)
  | [a, b] => a.all (·.isDigit) && b.all (·.isDigit) && (!a.isEmpty || !b.isEmpty)
  | _ => false

/-- Substring containment, Python `needle in hay`. -/
def subOccurs (needle : List Char) : List Char → Bool
  | [] => needle.isPrefixOf []
  | c :: rest => needle.isPrefixOf (c :: rest) || subOccurs needle rest

/-- Python `msg.startswith(p)`. -/
def strStarts (msg p : String) : Bool :=
  p.data.isPrefixOf msg.data

/-! ## Python dict / value model -/

/-- Opaque model of a Python float value.  `lit tok` is `float(tok)`;
`micro tok` is `float(tok) / 1e6` (used for latitude/longitude).  No
verified property compares or computes with float values. -/
inductive FloatVal
  | lit (tok : String)
  | micro (tok : String)
deriving DecidableEq, Repr

/-- Values stored in the Python dicts this program builds. -/
inductive Val
  | intV (n : Int)
  | strV (s : String)
  | floatV (f : FloatVal)
  | boolV (b : Bool)
deriving DecidableEq, Repr

/-- A Python dict, as an insertion-ordered association list. -/
abbrev PyDict := List (String × Val)

/-- Lookup in an insertion-ordered map. -/
def mapFind {κ α : Type} [DecidableEq κ] : List (κ × α) → κ → Option α
  | [], _ => none
  | (k', v) :: rest, k => if k' = k then some v else mapFind rest k

/-- Python `d[k] = v` on an insertion-ordered map: an existing key keeps its
position, a new key is appended at the end. -/
def mapInsert {κ α : Type} [DecidableEq κ] : List (κ × α) → κ → α → List (κ × α)
  | [], k, v => [(k, v)]
  | (k', v') :: rest, k, v =>
    if k' = k then (k, v) :: rest else (k', v') :: mapInsert rest k v

/-- Python `d.get(k, default)`. -/
def mapGetD {κ α : Type} [DecidableEq κ] (d : List (κ × α)) (k : κ) (dflt : α) : α :=
  match mapFind d k with
  | some v => v
  | none => dflt

/-- The keys of a dict, in insertion order. -/
def dictKeys (d : PyDict) : List String :=
  d.map Prod.fst

/-! ## TruePositionState (trueposition/state.py) -/

/-- The fields of `TruePositionState.__init__`.  `_wallclock` and
`_leap_seconds` are initialised to the placeholder `{}` (an empty dict) and
only ever hold an int after `$CLOCK` is processed; `none` models the
non-numeric placeholder.  `_geo`, `_elev`, `_elev_corr`, `_tdop` and
`_temperature` hold Python numbers whose values no verified property reads;
they are kept as `Val`/`FloatVal`.  The queue, protocol handle, output list
and `_running` flag are loop plumbing, replaced by the explicit step
relation below. -/
structure TPState where
  sats : List (Int × PyDict)
  wallclock : Option Int
  leapSeconds : Option Int
  quality : Int
  isSurvey : Bool
  nrSatSignals : Int
  tdop : FloatVal
  temperature : FloatVal
  geoLat : Val
  geoLon : Val
  elev : Val
  elevCorr : Val
  tenMhzBad : Bool
  onePpsBad : Bool
  antennaBad : Bool
  holdoverSec : Int
  nrTrackedSats : Int
  stateCode : Int
  haveVersion : Bool
  firmwareVersion : Option String
  firmwareSerial : Option String
  isActive : Bool
  inBootloader : Bool
  surveySecs : Int
deriving DecidableEq, Repr

/-- The state built by `TruePositionState.__init__`. -/
def initState : TPState where
  sats := []
  wallclock := none
  leapSeconds := none
  quality := 9
  isSurvey := false
  nrSatSignals := 0
  tdop := .lit "0.0"
  temperature := .lit "0.0"
  geoLat := .floatV (.lit "0.0")
  geoLon := .floatV (.lit "0.0")
  elev := .intV 0
  elevCorr := .intV 0
  tenMhzBad := false
  onePpsBad := false
  antennaBad := false
  holdoverSec := 0
  nrTrackedSats := 0
  stateCode := -1
  haveVersion := false
  firmwareVersion := none
  firmwareSerial := none
  isActive := false
  inBootloader := false
  surveySecs := 0

/-- Python truthiness of an optional string: `not x` is true for `None` and
for the empty string. -/
def pyFalsy : Option String → Bool
  | none => true
  | some s => s.isEmpty

/-- `fields[i]`: IndexError past the end. -/
def strAt (fs : List String) (i : Nat) : Except String String :=
  match fs.get? i with
  | some t => .ok t
  | none => .error "IndexError"

/-- `int(fields[i])`. -/
def pyIntAt (fs : List String) (i : Nat) : Except String Int :=
  match fs.get? i with
  | some t =>
    match pyInt t with
    | some v => .ok v
    | none => .error "ValueError"
  | none => .error "IndexError"

/-- `float(fields[i])`, returning the accepted token. -/
def pyFloatAt (fs : List String) (i : Nat) : Except String String :=
  match fs.get? i with
  | some t => if pyFloatOK t then .ok (pyStripStr t) else .error "ValueError"
  | none => .error "IndexError"

/-- `TruePositionState.epoch_time`: `315964800 + self._leap_seconds +
self._wallclock`.  If either field still holds the `{}` placeholder the
addition raises TypeError. -/
def epochTime (s : TPState) : Except String Int :=
  match s.wallclock, s.leapSeconds with
  | some w, some l => .ok (315964800 + l + w)
  | _, _ => .error "TypeError"

/-- `TruePositionState._getver`.  A response containing the literal token
`BOOT` marks the device bootloader-pending and inactive; otherwise fields 1
and 6 are stored unconditionally as the firmware identity.  (The handler
always returns `None` in the source, so the dispatcher `if resp:` branch is
dead code and enqueues nothing.) -/
def getverH (s : TPState) (msg : String) : Except String TPState :=
  if subOccurs "BOOT".data msg.data then
    .ok { s with inBootloader := true, isActive := false }
  else
    match strAt (pySplit msg) 1, strAt (pySplit msg) 6 with
    | .ok v, .ok ser =>
      .ok { s with firmwareVersion := some v, firmwareSerial := some ser, isActive := true }
    | .error e, _ => .error e
    | _, .error e => .error e

/-- `TruePositionState._clock`. -/
def clockH (s : TPState) (msg : String) : Except String TPState :=
  match pyIntAt (pySplit msg) 1, pyIntAt (pySplit msg) 2, pyIntAt (pySplit msg) 3 with
  | .ok w, .ok l, .ok q =>
    .ok { s with isActive := true, wallclock := some w, leapSeconds := some l, quality := q }
  | .error e, _, _ => .error e
  | _, .error e, _ => .error e
  | _, _, .error e => .error e

/-- `TruePositionState._sat`: parses the channel and satellite fields and
builds the per-channel dict, whose `lastSeen` reads `epoch_time` of the
current state.  Returns the channel and the dict; the caller stores it. -/
def satH (s : TPState) (msg : String) : Except String (Int × PyDict) :=
  match pyIntAt (pySplit msg) 1, pyIntAt (pySplit msg) 2, pyIntAt (pySplit msg) 3, pyIntAt (pySplit msg) 4, pyIntAt (pySplit msg) 5, epochTime s with
  | .ok ch, .ok sid, .ok el, .ok az, .ok snr, .ok ls =>
    .ok (ch, [("satId", .intV sid), ("el", .intV el), ("az", .intV az),
              ("snr", .intV snr), ("lastSeen", .intV ls), ("slotId", .intV ch)])
  | .error e, _, _, _, _, _ => .error e
  | _, .error e, _, _, _, _ => .error e
  | _, _, .error e, _, _, _ => .error e
  | _, _, _, .error e, _, _ => .error e
  | _, _, _, _, .error e, _ => .error e
  | _, _, _, _, _, .error e => .error e

/-- `TruePositionState._survey`. -/
def surveyH (s : TPState) (msg : String) : Except String TPState :=
  match pyFloatAt (pySplit msg) 1, pyFloatAt (pySplit msg) 2, pyFloatAt (pySplit msg) 3, pyFloatAt (pySplit msg) 4, pyIntAt (pySplit msg) 5 with
  | .ok la, .ok lo, .ok el, .ok ec, .ok ss =>
    .ok { s with isActive := true, elev := .floatV (.lit el), elevCorr := .floatV (.lit ec),
                 surveySecs := ss, geoLat := .floatV (.micro la), geoLon := .floatV (.micro lo) }
  | .error e, _, _, _, _ => .error e
  | _, .error e, _, _, _ => .error e
  | _, _, .error e, _, _ => .error e
  | _, _, _, .error e, _ => .error e
  | _, _, _, _, .error e => .error e

/-- `TruePositionState._extstatus`.  Logs only when entering a survey and
when the external-signal count changes, comparing against the previous
values before storing the new ones. -/
def extstatusH (s : TPState) (msg : String) : Except String (TPState × List String) :=
  match pyIntAt (pySplit msg) 1, pyIntAt (pySplit msg) 2, pyFloatAt (pySplit msg) 3, pyFloatAt (pySplit msg) 4 with
  | .ok sv, .ok nr, .ok td, .ok tm =>
    let isSv : Bool := sv = 1
    let logs : List String :=
      (if isSv ≠ s.isSurvey ∧ isSv then ["GPS Receiver is performing a site survey"] else [])
        ++ (if nr ≠ s.nrSatSignals then ["We see " ++ toString nr ++ " external satellite signals"] else [])
    .ok ({ s with isActive := true, isSurvey := isSv, nrSatSignals := nr,
                  tdop := .lit td, temperature := .lit tm }, logs)
  | .error e, _, _, _ => .error e
  | _, .error e, _, _ => .error e
  | _, _, .error e, _ => .error e
  | _, _, _, .error e => .error e

/-- `TruePositionState._getpos`.  Field 5 is parsed into a local variable
that the source never uses: it does NOT update `_state`. -/
def getposH (s : TPState) (msg : String) : Except String TPState :=
  match pyFloatAt (pySplit msg) 1, pyFloatAt (pySplit msg) 2, pyFloatAt (pySplit msg) 3, pyFloatAt (pySplit msg) 4, pyIntAt (pySplit msg) 5 with
  | .ok la, .ok lo, .ok el, .ok ec, .ok _ =>
    .ok { s with isActive := true, elev := .floatV (.lit el), elevCorr := .floatV (.lit ec),
                 geoLat := .floatV (.micro la), geoLon := .floatV (.micro lo) }
  | .error e, _, _, _, _ => .error e
  | _, .error e, _, _, _ => .error e
  | _, _, .error e, _, _ => .error e
  | _, _, _, .error e, _ => .error e
  | _, _, _, _, .error e => .error e

/-- The `$STATUS` field parse: booleans from fields 1-3, ints from 4-6. -/
def statusParse (msg : String) : Except String (Bool × Bool × Bool × Int × Int × Int) :=
  match pyIntAt (pySplit msg) 1, pyIntAt (pySplit msg) 2, pyIntAt (pySplit msg) 3, pyIntAt (pySplit msg) 4, pyIntAt (pySplit msg) 5, pyIntAt (pySplit msg) 6 with
  | .ok a, .ok b, .ok c, .ok h, .ok n, .ok st =>
    .ok (a ≠ 0, b ≠ 0, c ≠ 0, h, n, st)
  | .error e, _, _, _, _, _ => .error e
  | _, .error e, _, _, _, _ => .error e
  | _, _, .error e, _, _, _ => .error e
  | _, _, _, .error e, _, _ => .error e
  | _, _, _, _, .error e, _ => .error e
  | _, _, _, _, _, .error e => .error e

/-- `TruePositionState._status`: edge-triggered transition logging (each of
the five comparisons is against the value stored before this message), then
the new values are stored. -/
def statusH (s : TPState) (msg : String) : Except String (TPState × List String) :=
  match statusParse msg with
  | .error e => .error e
  | .ok (t, p, a, h, n, st) =>
    let logs : List String :=
      (if t ≠ s.tenMhzBad then
        [if t then "10MHz Precision Timing Signal is bad!"
         else "10MHz Precision Timing Signal is good."] else [])
      ++ (if p ≠ s.onePpsBad then
        [if p then "1PPS signal is bad!" else "1PPS signal has come back"] else [])
      ++ (if a ≠ s.antennaBad then
        [if a then "Antenna is bad." else "Antenna is good."] else [])
      ++ (if n ≠ s.nrTrackedSats then
        ["Software PLL locked for " ++ toString n ++ " satellites"] else [])
      ++ (if st ≠ s.stateCode then
        ["State " ++ toString s.stateCode ++ " -> " ++ toString st] else [])
    .ok ({ s with isActive := true, holdoverSec := h, tenMhzBad := t, onePpsBad := p,
                  antennaBad := a, nrTrackedSats := n, stateCode := st }, logs)

/-- `TruePositionState._encode_gps_state`, the Gps event payload. -/
def encodeGpsState (s : TPState) : Except String PyDict :=
  match epochTime s with
  | .error e => .error e
  | .ok t =>
    .ok [("time", .intV t), ("nrTrackedSats", .intV s.nrTrackedSats),
         ("elevMetres", s.elev), ("latitude", s.geoLat), ("longitude", s.geoLon),
         ("geoidOffs", s.elevCorr), ("goodFix", .boolV (s.stateCode = 0)),
         ("nrSats", .intV s.nrTrackedSats)]

/-- `trackedSats` in `TruePositionState._encode_state`:
`[y for y in self._sats.values()]`. -/
def trackedSatsOf (s : TPState) : List PyDict :=
  s.sats.map Prod.snd

/-- The per-tag dispatch of `TruePositionState._handle_messages`: the elif
chain on the message prefix.  Result: new state, the TypedEvents pushed to
every output sink, and the transition log lines.  The `$SAT` branch models
the source aliasing: `sat_info` is stored in `self._sats[channel]` and then
mutated with `sat_info['type'] = 'sat'`, so the stored table entry and the
dispatched event are the same dict, including the `type` key. -/
def stepCore (s : TPState) (msg : String) :
    Except String (TPState × List PyDict × List String) :=
  if strStarts msg "$GETVER" then
    match getverH s msg with
    | .error e => .error e
    | .ok s1 => .ok (s1, [], [])
  else if strStarts msg "$CLOCK" then
    match clockH s msg with
    | .error e => .error e
    | .ok s1 =>
      match encodeGpsState s1 with
      | .error e => .error e
      | .ok d => .ok (s1, [mapInsert d "type" (.strV "gps")], [])
  else if strStarts msg "$SAT" then
    match satH s msg with
    | .error e => .error e
    | .ok (ch, d0) =>
      let d := mapInsert d0 "type" (.strV "sat")
      .ok ({ s with isActive := true, sats := mapInsert s.sats ch d }, [d], [])
  else if strStarts msg "$WSAT" then
    .ok ({ s with isActive := true }, [], [])
  else if strStarts msg "$SURVEY" then
    match surveyH s msg with
    | .error e => .error e
    | .ok s1 => .ok (s1, [], [])
  else if strStarts msg "$EXTSTATUS" then
    match extstatusH s msg with
    | .error e => .error e
    | .ok (s1, logs) => .ok (s1, [], logs)
  else if strStarts msg "$GETPOS" then
    match getposH s msg with
    | .error e => .error e
    | .ok s1 => .ok (s1, [], [])
  else if strStarts msg "$STATUS" then
    match statusH s msg with
    | .error e => .error e
    | .ok (s1, logs) => .ok (s1, [], logs)
  else
    .ok (s, [], ["UNKNOWN MSG: [" ++ msg ++ "]"])

/-- The result of processing one inbound message. -/
structure StepResult where
  state : TPState
  cmds : List String
  events : List PyDict
  logs : List String
deriving DecidableEq, Repr

/-- One iteration of `TruePositionState._handle_messages`: indexing `msg[0]`
raises on an empty message; then the per-tag dispatch; then the bootloader
hook (enqueue exactly one `$PROCEED` and clear the pending flag) and the
firmware self-healing hook (enqueue `$GETVER` while active with incomplete
identity, `not x` being Python falsiness). -/
def step (s : TPState) (msg : String) : Except String StepResult :=
  if msg.data.isEmpty then .error "IndexError"
  else
    match stepCore s msg with
    | .error e => .error e
    | .ok (s1, evs, logs) =>
      let pr := s1.inBootloader
      let s2 := if pr then { s1 with inBootloader := false } else s1
      let cmds1 : List String := if pr then ["$PROCEED"] else []
      let logs1 := if pr then logs ++ ["Device is in bootloader, booting."] else logs
      let cmds2 :=
        if s2.isActive && (pyFalsy s2.firmwareSerial || pyFalsy s2.firmwareVersion)
        then cmds1 ++ ["$GETVER"] else cmds1
      .ok ⟨s2, cmds2, evs, logs1⟩

/-- Run the dispatcher over a message list; an uncaught exception aborts the
loop. -/
def run (s : TPState) : List String → Except String TPState
  | [] => .ok s
  | m :: ms =>
    match step s m with
    | .error e => .error e
    | .ok r => run r.state ms

/-- Like `run`, also accumulating every command enqueued to the serial
protocol, in order. -/
def runAcc (s : TPState) : List String → Except String (TPState × List String)
  | [] => .ok (s, [])
  | m :: ms =>
    match step s m with
    | .error e => .error e
    | .ok r =>
      match runAcc r.state ms with
      | .error e => .error e
      | .ok (s', cs) => .ok (s', r.cmds ++ cs)

/-! ## NMEA sentence formatting (trueposition/nmea_writer.py) -/

/-- `__nmea_chksum`: XOR of `ord(c)` over all characters of the body. -/
def nmeaChksum (body : String) : Nat :=
  body.data.foldl (fun a c => a ^^^ c.toNat) 0

/-- The Python format specification `{:2x}`: lowercase hexadecimal, minimum
field width 2, right aligned, padded on the left with SPACES (not zeros). -/
def pyHexW2 (n : Nat) : String :=
  let ds := Nat.toDigits 16 n
  String.mk (List.replicate (2 - ds.length) ' ' ++ ds)

/-- `__format_nmea_msg`: `'${}*{:2x}\n'.format(msg_body, chksum)`. -/
def formatNmeaMsg (body : String) : String :=
  "$" ++ body ++ "*" ++ pyHexW2 (nmeaChksum body) ++ "\n"

/-- Decides whether a character is one of the sixteen lowercase hexadecimal
digit characters. -/
def isLowerHexDigit (c : Char) : Bool :=
  c.isDigit || (c = 'a' || c = 'b' || c = 'c' || c = 'd' || c = 'e' || c = 'f')

/-! ## NMEA writer sink (TruePositionNMEAWriter._writer)

The writer task state when the loop begins: `self._last_zda = 0` and
`self._last_gps_msg = None`.  Each queue element is processed by one step;
`now` is the value of `time.time()` read at the top of the iteration.  Each
element of the output list is one `self._file.write(...)` of a nonempty
`'$...*hh\n'` sentence (the sentence text itself is built by
`formatNmeaMsg`; the payload source is recorded rather than the rendered
characters, since the verified properties only count writes). -/

/-- One write performed by the NMEA writer: a ZDA sentence built from the
retained last Gps snapshot, or a GGA sentence built from the event just
received. -/
inductive NmeaOut
  | zda (src : PyDict)
  | gga (src : PyDict)
deriving DecidableEq, Repr

/-- The NMEA writer task state. -/
structure NmeaWState where
  lastZda : Int
  lastGpsMsg : Option PyDict
  zdaInterval : Int
deriving DecidableEq, Repr

/-- The writer state at the top of `_writer` (after `self._last_zda = 0`),
with the default `zda_interval_sec=60`. -/
def nmeaWInit : NmeaWState := { lastZda := 0, lastGpsMsg := none, zdaInterval := 60 }

/-- Is the periodic ZDA emission due?  `self._last_gps_msg and
(now - self._last_zda) >= self._zda_interval_sec` — note Python truthiness:
`None` and the empty dict are falsy. -/
def zdaDue (st : NmeaWState) (now : Int) : Bool :=
  match st.lastGpsMsg with
  | none => false
  | some g => !g.isEmpty && st.zdaInterval ≤ now - st.lastZda

/-- One iteration of `TruePositionNMEAWriter._writer` on a dequeued event.
The ZDA check runs BEFORE the message-type dispatch, so it fires whatever
the type of the event that woke the loop. -/
def nmeaWriterStep (st : NmeaWState) (now : Int) (msg : PyDict) :
    NmeaWState × List NmeaOut :=
  let (st1, out1) :=
    if zdaDue st now then
      ({ st with lastZda := now },
       [NmeaOut.zda (match st.lastGpsMsg with | some g => g | none => [])])
    else (st, [])
  let mt := mapGetD msg "type" (.strV "unknown")
  if mt = .strV "sat" then (st1, out1)
  else if mt = .strV "gps" then
    ({ st1 with lastGpsMsg := some msg }, out1 ++ [NmeaOut.gga msg])
  else (st1, out1)

/-! ## Ephemeris writer sink (TruePositionSatWriter._writer) -/

/-- One iteration of `TruePositionSatWriter._writer` on a dequeued event:
the list of events written out as JSON lines (empty or a singleton). -/
def satWriterStep (msg : PyDict) : List PyDict :=
  if mapGetD msg "type" (.strV "unknown") = .strV "sat" then [msg] else []

/-! ## Serial transport framing (TruePositionUART.data_received) -/

/-- The character loop of `data_received`: CR terminates the accumulated
message, LF is eaten, anything else is appended to `self._cur`.  Returns
the completed raw messages (in order) and the new residue. -/
def procChars (cur : List Char) : List Char → List (List Char) × List Char
  | [] => ([], cur)
  | c :: cs =>
    if c = '\r' then
      (cur :: (procChars [] cs).1, (procChars [] cs).2)
    else if c = '\n' then procChars cur cs
    else procChars (cur ++ [c]) cs

/-- The whole of `data_received` over a sequence of byte chunks: each chunk
is scanned, then every completed message with nonempty `strip()` is
forwarded (as its stripped form) to the dispatcher, in order; the residue
carries over to the next chunk. -/
def uartRun (cur : List Char) : List (List Char) → List (List Char) × List Char
  | [] => ([], cur)
  | ch :: rest =>
    (((procChars cur ch).1.map pyStrip).filter (fun m => !m.isEmpty) ++
       (uartRun (procChars cur ch).2 rest).1,
     (uartRun (procChars cur ch).2 rest).2)

/-- Discard every LF byte of the stream. -/
def stripLF (l : List Char) : List Char :=
  l.filter (fun c => c ≠ '\n')

/-- The specification-level description of the framing: discard LF, split
the stream on CR terminators (the trailing piece after the last CR is an
incomplete message and is not forwarded), trim whitespace, drop empties. -/
def uartSpec (stream : List Char) : List (List Char) :=
  (((splitCharList '\r' (stripLF stream)).dropLast).map pyStrip).filter
    (fun m => !m.isEmpty)

/-! ## Concrete states and results used by the witnesses below -/

/-- The result of processing `$CLOCK 631152000 18 1` from the initial
state. -/
def clockStepRes : StepResult where
  state := { initState with isActive := true, wallclock := some 631152000,
                            leapSeconds := some 18, quality := 1 }
  cmds := ["$GETVER"]
  events := [[("time", .intV 947116818), ("nrTrackedSats", .intV 0),
              ("elevMetres", .intV 0), ("latitude", .floatV (.lit "0.0")),
              ("longitude", .floatV (.lit "0.0")), ("geoidOffs", .intV 0),
              ("goodFix", .boolV false), ("nrSats", .intV 0),
              ("type", .strV "gps")]]
  logs := []

/-- The dispatcher state after `$GETVER BOOT` then `$STATUS 0 0 0 5 4 0`. -/
def bootThenStatusState : TPState :=
  { initState with isActive := true, holdoverSec := 5, nrTrackedSats := 4, stateCode := 0 }

/-- The dispatcher state after a first `$GETVER` response set the firmware
identity. -/
def fwSetState : TPState :=
  { initState with firmwareVersion := some "2.0.1", firmwareSerial := some "SER1",
                   isActive := true }

/-- The step result of the overwriting second `$GETVER` response. -/
def fwOverwriteRes : StepResult where
  state := { fwSetState with firmwareVersion := some "3.0.0",
                             firmwareSerial := some "SER2" }
  cmds := []
  events := []
  logs := []

/-- Result of the first `$STATUS 0 0 0 5 4 0` from the initial state. -/
def statusRes1 : StepResult where
  state := bootThenStatusState
  cmds := ["$GETVER"]
  events := []
  logs := ["Software PLL locked for 4 satellites", "State -1 -> 0"]

/-- Result of repeating the same `$STATUS` message: same state, no logs. -/
def statusRes2 : StepResult where
  state := bootThenStatusState
  cmds := ["$GETVER"]
  events := []
  logs := []

/-- The key set every satellite-table entry ends up with: the six data
fields of `_sat` plus the `type` tag added by the dispatcher. -/
def satKeys : List String := ["satId", "el", "az", "snr", "lastSeen", "slotId", "type"]

/-- The table entry (and dispatched event) for `$SAT 0 5 30 200 40` after
`$CLOCK 631152000 18 1`. -/
def satDictW : PyDict :=
  [("satId", .intV 5), ("el", .intV 30), ("az", .intV 200), ("snr", .intV 40),
   ("lastSeen", .intV 947116818), ("slotId", .intV 0), ("type", .strV "sat")]

/-- The dispatcher state after `$CLOCK 631152000 18 1` then
`$SAT 0 5 30 200 40`. -/
def clockThenSatState : TPState :=
  { clockStepRes.state with sats := [(0, satDictW)] }

/-- A Gps event as built by the dispatcher for `$CLOCK 631152000 18 1` from
the initial state. -/
def gpsEvW : PyDict :=
  [("time", .intV 947116818), ("nrTrackedSats", .intV 0), ("elevMetres", .intV 0),
   ("latitude", .floatV (.lit "0.0")), ("longitude", .floatV (.lit "0.0")),
   ("geoidOffs", .intV 0), ("goodFix", .boolV false), ("nrSats", .intV 0),
   ("type", .strV "gps")]

/-! ## Characterisations of the message handlers -/

theorem getverH_ok {s : TPState} {msg : String} {s' : TPState}
    (h : getverH s msg = .ok s') :
    (subOccurs "BOOT".data msg.data = true ∧
      s' = { s with inBootloader := true, isActive := false }) ∨
    (subOccurs "BOOT".data msg.data = false ∧
      ∃ v ser, strAt (pySplit msg) 1 = .ok v ∧ strAt (pySplit msg) 6 = .ok ser ∧
        s' = { s with firmwareVersion := some v, firmwareSerial := some ser,
                      isActive := true }) := by
  unfold getverH at h
  split at h
  · left
    refine ⟨by assumption, ?_⟩
    cases h
    rfl
  · right
    refine ⟨by simpa using ‹¬subOccurs "BOOT".data msg.data = true›, ?_⟩
    split at h
    · rename_i v ser hv hser
      cases h
      exact ⟨v, ser, hv, hser, rfl⟩
    · cases h
    · cases h

theorem clockH_ok {s : TPState} {msg : String} {s' : TPState}
    (h : clockH s msg = .ok s') :
    ∃ w l q, pyIntAt (pySplit msg) 1 = .ok w ∧ pyIntAt (pySplit msg) 2 = .ok l ∧
      pyIntAt (pySplit msg) 3 = .ok q ∧
      s' = { s with isActive := true, wallclock := some w, leapSeconds := some l,
                    quality := q } := by
  unfold clockH at h
  split at h
  · rename_i w l q hw hl hq
    cases h
    exact ⟨w, l, q, hw, hl, hq, rfl⟩
  · cases h
  · cases h
  · cases h

theorem satH_ok {s : TPState} {msg : String} {out : Int × PyDict}
    (h : satH s msg = .ok out) :
    ∃ ch sid el az snr ls, epochTime s = .ok ls ∧
      out = (ch, [("satId", .intV sid), ("el", .intV el), ("az", .intV az),
                  ("snr", .intV snr), ("lastSeen", .intV ls), ("slotId", .intV ch)]) := by
  unfold satH at h
  split at h
  · rename_i ch sid el az snr ls hch hsid hel haz hsnr hls
    cases h
    exact ⟨ch, sid, el, az, snr, ls, hls, rfl⟩
  all_goals cases h

theorem surveyH_ok {s : TPState} {msg : String} {s' : TPState}
    (h : surveyH s msg = .ok s') :
    ∃ la lo el ec ss,
      s' = { s with isActive := true, elev := .floatV (.lit el),
                    elevCorr := .floatV (.lit ec), surveySecs := ss,
                    geoLat := .floatV (.micro la), geoLon := .floatV (.micro lo) } := by
  unfold surveyH at h
  split at h
  · rename_i la lo el ec ss _ _ _ _ _
    cases h
    exact ⟨la, lo, el, ec, ss, rfl⟩
  all_goals cases h

theorem extstatusH_ok {s : TPState} {msg : String} {out : TPState × List String}
    (h : extstatusH s msg = .ok out) :
    ∃ (sv nr : Int) (td tm : String) (logs : List String),
      out = ({ s with isActive := true, isSurvey := (sv = 1 : Bool), nrSatSignals := nr,
                      tdop := .lit td, temperature := .lit tm }, logs) := by
  unfold extstatusH at h
  split at h
  · rename_i sv nr td tm _ _ _ _
    cases h
    exact ⟨sv, nr, td, tm, _, rfl⟩
  all_goals cases h

theorem getposH_ok {s : TPState} {msg : String} {s' : TPState}
    (h : getposH s msg = .ok s') :
    ∃ la lo el ec,
      s' = { s with isActive := true, elev := .floatV (.lit el),
                    elevCorr := .floatV (.lit ec),
                    geoLat := .floatV (.micro la), geoLon := .floatV (.micro lo) } := by
  unfold getposH at h
  split at h
  · rename_i la lo el ec x _ _ _ _ _
    cases h
    exact ⟨la, lo, el, ec, rfl⟩
  all_goals cases h

theorem statusH_ok {s : TPState} {msg : String} {out : TPState × List String}
    (h : statusH s msg = .ok out) :
    ∃ t p a hv n st, statusParse msg = .ok (t, p, a, hv, n, st) ∧
      out = ({ s with isActive := true, holdoverSec := hv, tenMhzBad := t,
                      onePpsBad := p, antennaBad := a, nrTrackedSats := n,
                      stateCode := st },
             (if t ≠ s.tenMhzBad then
               [if t then "10MHz Precision Timing Signal is bad!"
                else "10MHz Precision Timing Signal is good."] else [])
             ++ (if p ≠ s.onePpsBad then
               [if p then "1PPS signal is bad!" else "1PPS signal has come back"] else [])
             ++ (if a ≠ s.antennaBad then
               [if a then "Antenna is bad." else "Antenna is good."] else [])
             ++ (if n ≠ s.nrTrackedSats then
               ["Software PLL locked for " ++ toString n ++ " satellites"] else [])
             ++ (if st ≠ s.stateCode then
               ["State " ++ toString s.stateCode ++ " -> " ++ toString st] else [])) := by
  unfold statusH at h
  split at h
  · cases h
  · rename_i t p a hv n st heq
    cases h
    exact ⟨t, p, a, hv, n, st, heq, rfl⟩

/-! ## Case analysis of the dispatch chain -/

theorem stepCore_cases {s : TPState} {msg : String}
    {out : TPState × List PyDict × List String} (h : stepCore s msg = .ok out) :
    (strStarts msg "$GETVER" = true ∧
      ∃ s1, getverH s msg = .ok s1 ∧ out = (s1, [], []))
  ∨ (strStarts msg "$GETVER" = false ∧ strStarts msg "$CLOCK" = true ∧
      ∃ s1 d, clockH s msg = .ok s1 ∧ encodeGpsState s1 = .ok d ∧
        out = (s1, [mapInsert d "type" (.strV "gps")], []))
  ∨ (strStarts msg "$GETVER" = false ∧ strStarts msg "$CLOCK" = false ∧
      strStarts msg "$SAT" = true ∧
      ∃ ch d0, satH s msg = .ok (ch, d0) ∧
        out = ({ s with isActive := true,
                        sats := mapInsert s.sats ch (mapInsert d0 "type" (.strV "sat")) },
               [mapInsert d0 "type" (.strV "sat")], []))
  ∨ (strStarts msg "$GETVER" = false ∧ strStarts msg "$CLOCK" = false ∧
      strStarts msg "$SAT" = false ∧ strStarts msg "$WSAT" = true ∧
      out = ({ s with isActive := true }, [], []))
  ∨ (strStarts msg "$GETVER" = false ∧ strStarts msg "$CLOCK" = false ∧
      strStarts msg "$SAT" = false ∧ strStarts msg "$WSAT" = false ∧
      strStarts msg "$SURVEY" = true ∧
      ∃ s1, surveyH s msg = .ok s1 ∧ out = (s1, [], []))
  ∨ (strStarts msg "$GETVER" = false ∧ strStarts msg "$CLOCK" = false ∧
      strStarts msg "$SAT" = false ∧ strStarts msg "$WSAT" = false ∧
      strStarts msg "$SURVEY" = false ∧ strStarts msg "$EXTSTATUS" = true ∧
      ∃ s1 logs, extstatusH s msg = .ok (s1, logs) ∧ out = (s1, [], logs))
  ∨ (strStarts msg "$GETVER" = false ∧ strStarts msg "$CLOCK" = false ∧
      strStarts msg "$SAT" = false ∧ strStarts msg "$WSAT" = false ∧
      strStarts msg "$SURVEY" = false ∧ strStarts msg "$EXTSTATUS" = false ∧
      strStarts msg "$GETPOS" = true ∧
      ∃ s1, getposH s msg = .ok s1 ∧ out = (s1, [], []))
  ∨ (strStarts msg "$GETVER" = false ∧ strStarts msg "$CLOCK" = false ∧
      strStarts msg "$SAT" = false ∧ strStarts msg "$WSAT" = false ∧
      strStarts msg "$SURVEY" = false ∧ strStarts msg "$EXTSTATUS" = false ∧
      strStarts msg "$GETPOS" = false ∧ strStarts msg "$STATUS" = true ∧
      ∃ s1 logs, statusH s msg = .ok (s1, logs) ∧ out = (s1, [], logs))
  ∨ (strStarts msg "$GETVER" = false ∧ strStarts msg "$CLOCK" = false ∧
      strStarts msg "$SAT" = false ∧ strStarts msg "$WSAT" = false ∧
      strStarts msg "$SURVEY" = false ∧ strStarts msg "$EXTSTATUS" = false ∧
      strStarts msg "$GETPOS" = false ∧ strStarts msg "$STATUS" = false ∧
      out = (s, [], ["UNKNOWN MSG: [" ++ msg ++ "]"])) := by
  unfold stepCore at h
  split at h
  · rename_i hg
    left
    split at h
    · cases h
    · rename_i s1 heq
      cases h
      exact ⟨hg, s1, heq, rfl⟩
  · split at h
    · rename_i hg hc
      right; left
      refine ⟨by simpa using hg, hc, ?_⟩
      split at h
      · cases h
      · rename_i s1 heq1
        split at h
        · cases h
        · rename_i d heq2
          cases h
          exact ⟨s1, d, heq1, heq2, rfl⟩
    · split at h
      · rename_i hg hc hs
        right; right; left
        refine ⟨by simpa using hg, by simpa using hc, hs, ?_⟩
        split at h
        · cases h
        · rename_i ch d0 heq
          cases h
          exact ⟨ch, d0, heq, rfl⟩
      · split at h
        · rename_i hg hc hs hw
          right; right; right; left
          cases h
          exact ⟨by simpa using hg, by simpa using hc, by simpa using hs, hw, rfl⟩
        · split at h
          · rename_i hg hc hs hw hsv
            right; right; right; right; left
            split at h
            · cases h
            · rename_i s1 heq
              cases h
              exact ⟨by simpa using hg, by simpa using hc, by simpa using hs,
                     by simpa using hw, hsv, s1, heq, rfl⟩
          · split at h
            · rename_i hg hc hs hw hsv hx
              right; right; right; right; right; left
              split at h
              · cases h
              · rename_i s1 logs heq
                cases h
                exact ⟨by simpa using hg, by simpa using hc, by simpa using hs,
                       by simpa using hw, by simpa using hsv, hx, s1, logs, heq, rfl⟩
            · split at h
              · rename_i hg hc hs hw hsv hx hp
                right; right; right; right; right; right; left
                split at h
                · cases h
                · rename_i s1 heq
                  cases h
                  exact ⟨by simpa using hg, by simpa using hc, by simpa using hs,
                         by simpa using hw, by simpa using hsv, by simpa using hx,
                         hp, s1, heq, rfl⟩
              · split at h
                · rename_i hg hc hsat hw hsv hx hp hst
                  right; right; right; right; right; right; right; left
                  split at h
                  · cases h
                  · rename_i s1 logs heq
                    cases h
                    exact ⟨by simpa using hg, by simpa using hc, by simpa using hsat,
                           by simpa using hw, by simpa using hsv, by simpa using hx,
                           by simpa using hp, hst, s1, logs, heq, rfl⟩
                · rename_i hg hc hsat hw hsv hx hp hst
                  right; right; right; right; right; right; right; right
                  cases h
                  exact ⟨by simpa using hg, by simpa using hc, by simpa using hsat,
                         by simpa using hw, by simpa using hsv, by simpa using hx,
                         by simpa using hp, by simpa using hst, rfl⟩

/-- Unpacks one accepted `step`: the per-tag dispatch result plus the
bootloader and firmware-poll hooks.  Also records that the bootloader
pending flag is always clear when the iteration ends. -/
theorem step_ok {s : TPState} {msg : String} {r : StepResult}
    (h : step s msg = .ok r) :
    ∃ s1 evs logs, stepCore s msg = .ok (s1, evs, logs) ∧
      r.state = (if s1.inBootloader then { s1 with inBootloader := false } else s1) ∧
      r.state.inBootloader = false ∧
      r.cmds = (if s1.inBootloader then ["$PROCEED"] else []) ++
        (if r.state.isActive && (pyFalsy r.state.firmwareSerial ||
            pyFalsy r.state.firmwareVersion) then ["$GETVER"] else []) ∧
      r.events = evs ∧
      r.logs = (if s1.inBootloader then logs ++ ["Device is in bootloader, booting."]
                else logs) := by
  unfold step at h
  split at h
  · cases h
  · split at h
    · cases h
    · rename_i out s1 evs logs heq
      cases h
      refine ⟨s1, evs, logs, heq, ?_⟩
      by_cases hb : s1.inBootloader <;> simp [hb]
      split <;> simp

/-- Clearing the bootloader-pending flag at the end of an iteration touches
no other field. -/
theorem clearBoot_fields (s1 : TPState) (b : Bool) :
    (if b then { s1 with inBootloader := false } else s1).wallclock = s1.wallclock ∧
    (if b then { s1 with inBootloader := false } else s1).leapSeconds = s1.leapSeconds ∧
    (if b then { s1 with inBootloader := false } else s1).sats = s1.sats ∧
    (if b then { s1 with inBootloader := false } else s1).firmwareVersion = s1.firmwareVersion ∧
    (if b then { s1 with inBootloader := false } else s1).firmwareSerial = s1.firmwareSerial ∧
    (if b then { s1 with inBootloader := false } else s1).isActive = s1.isActive := by
  cases b <;> simp

/-! ## Frame lemmas: which dispatch branches touch which fields -/

/-- Any message that is not a `$CLOCK` leaves the wallclock and leap-second
fields untouched. -/
theorem stepCore_clockFields {s : TPState} {msg : String}
    {out : TPState × List PyDict × List String} (h : stepCore s msg = .ok out)
    (hnc : strStarts msg "$CLOCK" = false) :
    out.1.wallclock = s.wallclock ∧ out.1.leapSeconds = s.leapSeconds := by
  rcases stepCore_cases h with
    ⟨hg, s1, heq, hout⟩ | ⟨_, hc, _⟩ | ⟨_, _, _, ch, d0, heq, hout⟩ |
    ⟨_, _, _, _, hout⟩ | ⟨_, _, _, _, _, s1, heq, hout⟩ |
    ⟨_, _, _, _, _, _, s1, logs, heq, hout⟩ | ⟨_, _, _, _, _, _, _, s1, heq, hout⟩ |
    ⟨_, _, _, _, _, _, _, _, s1, logs, heq, hout⟩ |
    ⟨_, _, _, _, _, _, _, _, hout⟩
  · rcases getverH_ok heq with ⟨_, rfl⟩ | ⟨_, v, ser, _, _, rfl⟩ <;> subst hout <;> simp
  · rw [hc] at hnc
    cases hnc
  · subst hout
    simp
  · subst hout
    simp
  · obtain ⟨la, lo, el, ec, ss, rfl⟩ := surveyH_ok heq
    subst hout
    simp
  · obtain ⟨sv, nr, td, tm, lg, hpair⟩ := extstatusH_ok heq
    cases hpair
    subst hout
    simp
  · obtain ⟨la, lo, el, ec, rfl⟩ := getposH_ok heq
    subst hout
    simp
  · obtain ⟨t, p, a, hv, n, st, _, hpair⟩ := statusH_ok heq
    cases hpair
    subst hout
    simp
  · subst hout
    simp

/-- Any message that is not a `$GETVER` leaves the firmware identity
untouched. -/
theorem stepCore_firmware {s : TPState} {msg : String}
    {out : TPState × List PyDict × List String} (h : stepCore s msg = .ok out)
    (hng : strStarts msg "$GETVER" = false) :
    out.1.firmwareVersion = s.firmwareVersion ∧
    out.1.firmwareSerial = s.firmwareSerial := by
  rcases stepCore_cases h with
    ⟨hg, s1, heq, hout⟩ | ⟨_, hc, s1, d, heq, henc, hout⟩ | ⟨_, _, _, ch, d0, heq, hout⟩ |
    ⟨_, _, _, _, hout⟩ | ⟨_, _, _, _, _, s1, heq, hout⟩ |
    ⟨_, _, _, _, _, _, s1, logs, heq, hout⟩ | ⟨_, _, _, _, _, _, _, s1, heq, hout⟩ |
    ⟨_, _, _, _, _, _, _, _, s1, logs, heq, hout⟩ |
    ⟨_, _, _, _, _, _, _, _, hout⟩
  · rw [hg] at hng
    cases hng
  · obtain ⟨w, l, q, _, _, _, rfl⟩ := clockH_ok heq
    subst hout
    simp
  · subst hout
    simp
  · subst hout
    simp
  · obtain ⟨la, lo, el, ec, ss, rfl⟩ := surveyH_ok heq
    subst hout
    simp
  · obtain ⟨sv, nr, td, tm, lg, hpair⟩ := extstatusH_ok heq
    cases hpair
    subst hout
    simp
  · obtain ⟨la, lo, el, ec, rfl⟩ := getposH_ok heq
    subst hout
    simp
  · obtain ⟨t, p, a, hv, n, st, _, hpair⟩ := statusH_ok heq
    cases hpair
    subst hout
    simp
  · subst hout
    simp

/-- Only a BOOT-containing `$GETVER` raises the bootloader-pending flag. -/
theorem stepCore_boot {s : TPState} {msg : String}
    {out : TPState × List PyDict × List String} (h : stepCore s msg = .ok out)
    (hnb : ¬(strStarts msg "$GETVER" = true ∧ subOccurs "BOOT".data msg.data = true)) :
    out.1.inBootloader = s.inBootloader := by
  rcases stepCore_cases h with
    ⟨hg, s1, heq, hout⟩ | ⟨_, hc, s1, d, heq, henc, hout⟩ | ⟨_, _, _, ch, d0, heq, hout⟩ |
    ⟨_, _, _, _, hout⟩ | ⟨_, _, _, _, _, s1, heq, hout⟩ |
    ⟨_, _, _, _, _, _, s1, logs, heq, hout⟩ | ⟨_, _, _, _, _, _, _, s1, heq, hout⟩ |
    ⟨_, _, _, _, _, _, _, _, s1, logs, heq, hout⟩ |
    ⟨_, _, _, _, _, _, _, _, hout⟩
  · rcases getverH_ok heq with ⟨hb, rfl⟩ | ⟨_, v, ser, _, _, rfl⟩
    · exact absurd ⟨hg, hb⟩ hnb
    · subst hout
      simp
  · obtain ⟨w, l, q, _, _, _, rfl⟩ := clockH_ok heq
    subst hout
    simp
  · subst hout
    simp
  · subst hout
    simp
  · obtain ⟨la, lo, el, ec, ss, rfl⟩ := surveyH_ok heq
    subst hout
    simp
  · obtain ⟨sv, nr, td, tm, lg, hpair⟩ := extstatusH_ok heq
    cases hpair
    subst hout
    simp
  · obtain ⟨la, lo, el, ec, rfl⟩ := getposH_ok heq
    subst hout
    simp
  · obtain ⟨t, p, a, hv, n, st, _, hpair⟩ := statusH_ok heq
    cases hpair
    subst hout
    simp
  · subst hout
    simp

/-- Per-step satellite-table frame: the table is either untouched or gains
exactly the dict built for one `$SAT` message (with the `type` tag). -/
theorem stepCore_sats {s : TPState} {msg : String}
    {out : TPState × List PyDict × List String} (h : stepCore s msg = .ok out) :
    out.1.sats = s.sats ∨
    ∃ ch d0, satH s msg = .ok (ch, d0) ∧
      out.1.sats = mapInsert s.sats ch (mapInsert d0 "type" (.strV "sat")) := by
  rcases stepCore_cases h with
    ⟨hg, s1, heq, hout⟩ | ⟨_, hc, s1, d, heq, henc, hout⟩ | ⟨_, _, _, ch, d0, heq, hout⟩ |
    ⟨_, _, _, _, hout⟩ | ⟨_, _, _, _, _, s1, heq, hout⟩ |
    ⟨_, _, _, _, _, _, s1, logs, heq, hout⟩ | ⟨_, _, _, _, _, _, _, s1, heq, hout⟩ |
    ⟨_, _, _, _, _, _, _, _, s1, logs, heq, hout⟩ |
    ⟨_, _, _, _, _, _, _, _, hout⟩
  · rcases getverH_ok heq with ⟨_, rfl⟩ | ⟨_, v, ser, _, _, rfl⟩ <;> subst hout <;> simp
  · obtain ⟨w, l, q, _, _, _, rfl⟩ := clockH_ok heq
    subst hout
    simp
  · right
    exact ⟨ch, d0, heq, by subst hout; simp⟩
  · subst hout
    simp
  · obtain ⟨la, lo, el, ec, ss, rfl⟩ := surveyH_ok heq
    subst hout
    simp
  · obtain ⟨sv, nr, td, tm, lg, hpair⟩ := extstatusH_ok heq
    cases hpair
    subst hout
    simp
  · obtain ⟨la, lo, el, ec, rfl⟩ := getposH_ok heq
    subst hout
    simp
  · obtain ⟨t, p, a, hv, n, st, _, hpair⟩ := statusH_ok heq
    cases hpair
    subst hout
    simp
  · subst hout
    simp

/-! ## Disambiguation of the literal message prefixes -/

theorem strStarts_ext {m p : String} (h : strStarts m p = true) :
    ∃ t, m.data = p.data ++ t := by
  unfold strStarts at h
  obtain ⟨t, ht⟩ := List.isPrefixOf_iff_prefix.mp h
  exact ⟨t, ht.symm⟩

theorem starts_clock_not_getver {m : String} (h : strStarts m "$CLOCK" = true) :
    strStarts m "$GETVER" = false := by
  obtain ⟨t, hd⟩ := strStarts_ext h
  unfold strStarts
  rw [hd]
  rfl

theorem starts_sat_not_getver {m : String} (h : strStarts m "$SAT" = true) :
    strStarts m "$GETVER" = false := by
  obtain ⟨t, hd⟩ := strStarts_ext h
  unfold strStarts
  rw [hd]
  rfl

theorem starts_sat_not_clock {m : String} (h : strStarts m "$SAT" = true) :
    strStarts m "$CLOCK" = false := by
  obtain ⟨t, hd⟩ := strStarts_ext h
  unfold strStarts
  rw [hd]
  rfl

theorem starts_status_guards {m : String} (h : strStarts m "$STATUS" = true) :
    strStarts m "$GETVER" = false ∧ strStarts m "$CLOCK" = false ∧
    strStarts m "$SAT" = false ∧ strStarts m "$WSAT" = false ∧
    strStarts m "$SURVEY" = false ∧ strStarts m "$EXTSTATUS" = false ∧
    strStarts m "$GETPOS" = false := by
  obtain ⟨t, hd⟩ := strStarts_ext h
  unfold strStarts
  rw [hd]
  exact ⟨rfl, rfl, rfl, rfl, rfl, rfl, rfl⟩

/-! ## Step-level and run-level frame lemmas -/

theorem step_clockFields {s : TPState} {msg : String} {r : StepResult}
    (h : step s msg = .ok r) (hnc : strStarts msg "$CLOCK" = false) :
    r.state.wallclock = s.wallclock ∧ r.state.leapSeconds = s.leapSeconds := by
  obtain ⟨s1, evs, logs, hcore, hstate, _, _, _, _⟩ := step_ok h
  have hf := clearBoot_fields s1 s1.inBootloader
  have hp := stepCore_clockFields hcore hnc
  rw [hstate]
  exact ⟨hf.1.trans hp.1, hf.2.1.trans hp.2⟩

theorem run_clockFields {msgs : List String} {s s' : TPState}
    (h : run s msgs = .ok s') (hnc : ∀ m ∈ msgs, strStarts m "$CLOCK" = false) :
    s'.wallclock = s.wallclock ∧ s'.leapSeconds = s.leapSeconds := by
  induction msgs generalizing s with
  | nil =>
    cases h
    exact ⟨rfl, rfl⟩
  | cons m ms ih =>
    unfold run at h
    split at h
    · cases h
    · rename_i r hstep
      have h1 := step_clockFields hstep (hnc m (List.mem_cons_self m ms))
      have h2 := ih h (fun x hx => hnc x (List.mem_cons_of_mem m hx))
      exact ⟨h2.1.trans h1.1, h2.2.trans h1.2⟩

theorem step_firmware {s : TPState} {msg : String} {r : StepResult}
    (h : step s msg = .ok r) (hng : strStarts msg "$GETVER" = false) :
    r.state.firmwareVersion = s.firmwareVersion ∧
    r.state.firmwareSerial = s.firmwareSerial := by
  obtain ⟨s1, evs, logs, hcore, hstate, _, _, _, _⟩ := step_ok h
  have hf := clearBoot_fields s1 s1.inBootloader
  have hp := stepCore_firmware hcore hng
  rw [hstate]
  exact ⟨hf.2.2.2.1.trans hp.1, hf.2.2.2.2.1.trans hp.2⟩

/-- `epoch_time` reads only the wallclock and leap-second fields. -/
theorem epochTime_congr {s t : TPState} (hw : s.wallclock = t.wallclock)
    (hl : s.leapSeconds = t.leapSeconds) : epochTime s = epochTime t := by
  unfold epochTime
  rw [hw, hl]

/-! ## C1: epoch time tracks the last `$CLOCK` values -/

/-- C1: after a `$CLOCK` message with wallclock `W ≥ 0` and leap-second
count `L ≥ 0` is processed, `epoch_time` reads `315964800 + L + W`, and it
still reads that value after any further messages that are not `$CLOCK`
messages are processed: the value is recomputed from the current fields on
every read and no other handler touches them. -/
theorem epochTime_tracks_clock {s : TPState} {msg : String} {W L Q : Int}
    {r : StepResult}
    (hc : strStarts msg "$CLOCK" = true)
    (hW : pyIntAt (pySplit msg) 1 = .ok W)
    (hL : pyIntAt (pySplit msg) 2 = .ok L)
    (hQ : pyIntAt (pySplit msg) 3 = .ok Q)
    (hW0 : 0 ≤ W) (hL0 : 0 ≤ L)
    (hstep : step s msg = .ok r) :
    r.state.wallclock = some W ∧ r.state.leapSeconds = some L ∧
    epochTime r.state = .ok (315964800 + L + W) ∧
    ∀ msgs s', (∀ m ∈ msgs, strStarts m "$CLOCK" = false) →
      run r.state msgs = .ok s' → epochTime s' = .ok (315964800 + L + W) := by
  obtain ⟨s1, evs, logs, hcore, hstate, _, _, _, _⟩ := step_ok hstep
  rcases stepCore_cases hcore with
    ⟨hg, _, _, _⟩ | ⟨_, _, s2, d, hck, henc, hout⟩ | ⟨_, hcc, _⟩ | ⟨_, hcc, _⟩ |
    ⟨_, hcc, _⟩ | ⟨_, hcc, _⟩ | ⟨_, hcc, _⟩ | ⟨_, hcc, _⟩ | ⟨_, hcc, _⟩
  case _ =>
    rw [starts_clock_not_getver hc] at hg
    cases hg
  case _ =>
    obtain ⟨w, l, q, hw', hl', hq', hs2⟩ := clockH_ok hck
    rw [hw'] at hW
    rw [hl'] at hL
    injection hW with hW
    injection hL with hL
    simp only [Prod.mk.injEq] at hout
    obtain ⟨rfl, rfl, rfl⟩ := hout
    have hf := clearBoot_fields s1 s1.inBootloader
    have hws2 : s1.wallclock = some W := by
      rw [hs2, ← hW]
    have hls2 : s1.leapSeconds = some L := by
      rw [hs2, ← hL]
    have hwr : r.state.wallclock = some W := by
      rw [hstate]
      exact hf.1.trans hws2
    have hlr : r.state.leapSeconds = some L := by
      rw [hstate]
      exact hf.2.1.trans hls2
    refine ⟨hwr, hlr, ?_, ?_⟩
    · simp [epochTime, hwr, hlr]
    · intro msgs s' hnc hrun
      obtain ⟨hw2, hl2⟩ := run_clockFields hrun hnc
      simp [epochTime, hw2.trans hwr, hl2.trans hlr]
  all_goals
    rw [hc] at hcc
    cases hcc

theorem epochTime_tracks_clock_witness :
    step initState "$CLOCK 631152000 18 1" = .ok clockStepRes ∧
    epochTime clockStepRes.state = .ok (315964800 + 18 + 631152000) ∧
    run clockStepRes.state ["$STATUS 0 0 0 5 4 0"] =
      .ok { clockStepRes.state with holdoverSec := 5, nrTrackedSats := 4,
                                    stateCode := 0 } ∧
    epochTime { clockStepRes.state with holdoverSec := 5, nrTrackedSats := 4,
                                        stateCode := 0 } =
      .ok (315964800 + 18 + 631152000) :=
  ⟨rfl,
   (@epochTime_tracks_clock initState "$CLOCK 631152000 18 1" 631152000 18 1
      clockStepRes rfl rfl rfl rfl (by decide) (by decide) rfl).2.2.1,
   rfl,
   (@epochTime_tracks_clock initState "$CLOCK 631152000 18 1" 631152000 18 1
      clockStepRes rfl rfl rfl rfl (by decide) (by decide) rfl).2.2.2
     ["$STATUS 0 0 0 5 4 0"] _ (by decide) rfl⟩

/-! ## C4: exactly one automatic `$PROCEED` per BOOT indication -/

/-- From a state with the bootloader-pending flag clear, one step enqueues
`$PROCEED` exactly when the message is a BOOT-containing `$GETVER`, and the
flag is clear again afterwards. -/
theorem step_proceed_count {s : TPState} {msg : String} {r : StepResult}
    (h : step s msg = .ok r) (hb : s.inBootloader = false) :
    r.cmds.count "$PROCEED" =
      (if strStarts msg "$GETVER" && subOccurs "BOOT".data msg.data then 1 else 0) ∧
    r.state.inBootloader = false := by
  obtain ⟨s1, evs, logs, hcore, hstate, hbfr, hcmds, hevs, hlogs⟩ := step_ok h
  refine ⟨?_, hbfr⟩
  by_cases hboot : strStarts msg "$GETVER" = true ∧ subOccurs "BOOT".data msg.data = true
  · obtain ⟨hg, hbo⟩ := hboot
    rcases stepCore_cases hcore with
      ⟨_, s2, heq, hout⟩ | ⟨hng, _⟩ | ⟨hng, _⟩ | ⟨hng, _⟩ | ⟨hng, _⟩ |
      ⟨hng, _⟩ | ⟨hng, _⟩ | ⟨hng, _⟩ | ⟨hng, _⟩
    · rcases getverH_ok heq with ⟨_, hs2⟩ | ⟨hnb, _⟩
      · simp only [Prod.mk.injEq] at hout
        obtain ⟨rfl, rfl, rfl⟩ := hout
        rw [hcmds]
        have hact : r.state.isActive = false := by
          rw [hstate]
          exact (clearBoot_fields s1 s1.inBootloader).2.2.2.2.2.trans (by rw [hs2])
        rw [hact]
        simp [hg, hbo, hs2]
      · rw [hbo] at hnb
        cases hnb
    all_goals rw [hg] at hng; cases hng
  · have hnb : ¬(strStarts msg "$GETVER" = true ∧ subOccurs "BOOT".data msg.data = true) :=
      hboot
    have hpr : s1.inBootloader = false := (stepCore_boot hcore hnb).trans hb
    rw [hcmds, hpr]
    have hcond : (strStarts msg "$GETVER" && subOccurs "BOOT".data msg.data) = false := by
      cases hx : strStarts msg "$GETVER" with
      | false => simp [hx]
      | true =>
        cases hy : subOccurs "BOOT".data msg.data with
        | false => simp [hx, hy]
        | true => exact absurd ⟨hx, hy⟩ hnb
    rw [hcond]
    by_cases hv : (r.state.isActive &&
        (pyFalsy r.state.firmwareSerial || pyFalsy r.state.firmwareVersion)) = true <;>
      simp [hv, List.count_cons, List.count_nil,
            show (("$GETVER" : String) == "$PROCEED") = false from rfl]

/-- C4: a BOOT-containing `$GETVER` marks the device inactive and
bootloader-pending (handler level); processing it enqueues exactly the one
command `$PROCEED` and leaves the pending flag clear and the device
inactive; and over any run started with the flag clear, the number of
`$PROCEED` commands enqueued equals the number of BOOT-containing `$GETVER`
messages processed — never a duplicate in between. -/
theorem bootloader_proceed_once :
    (∀ (s : TPState) (msg : String) (s1 : TPState),
      subOccurs "BOOT".data msg.data = true → getverH s msg = .ok s1 →
      s1.inBootloader = true ∧ s1.isActive = false)
  ∧ (∀ (s : TPState) (msg : String) (r : StepResult),
      strStarts msg "$GETVER" = true → subOccurs "BOOT".data msg.data = true →
      step s msg = .ok r →
      r.cmds = ["$PROCEED"] ∧ r.state.inBootloader = false ∧ r.state.isActive = false)
  ∧ (∀ (s : TPState) (msgs : List String) (out : TPState × List String),
      s.inBootloader = false → runAcc s msgs = .ok out →
      out.2.count "$PROCEED" =
        msgs.countP (fun m => strStarts m "$GETVER" && subOccurs "BOOT".data m.data) ∧
      out.1.inBootloader = false) := by
  refine ⟨?_, ?_, ?_⟩
  · intro s msg s1 hbo h
    rcases getverH_ok h with ⟨_, rfl⟩ | ⟨hnb, _⟩
    · simp
    · rw [hbo] at hnb
      cases hnb
  · intro s msg r hg hbo h
    obtain ⟨s1, evs, logs, hcore, hstate, hbfr, hcmds, hevs, hlogs⟩ := step_ok h
    rcases stepCore_cases hcore with
      ⟨_, s2, heq, hout⟩ | ⟨hng, _⟩ | ⟨hng, _⟩ | ⟨hng, _⟩ | ⟨hng, _⟩ |
      ⟨hng, _⟩ | ⟨hng, _⟩ | ⟨hng, _⟩ | ⟨hng, _⟩
    · rcases getverH_ok heq with ⟨_, hs2⟩ | ⟨hnb, _⟩
      · simp only [Prod.mk.injEq] at hout
        obtain ⟨rfl, rfl, rfl⟩ := hout
        have hact : r.state.isActive = false := by
          rw [hstate]
          exact (clearBoot_fields s1 s1.inBootloader).2.2.2.2.2.trans (by rw [hs2])
        refine ⟨?_, hbfr, hact⟩
        rw [hcmds, hact]
        simp [hs2]
      · rw [hbo] at hnb
        cases hnb
    all_goals rw [hg] at hng; cases hng
  · intro s msgs
    induction msgs generalizing s with
    | nil =>
      intro out hb h
      cases h
      simpa using hb
    | cons m ms ih =>
      intro out hb h
      unfold runAcc at h
      split at h
      · cases h
      · rename_i r hstep
        split at h
        · cases h
        · rename_i p s' cs hrest
          cases h
          obtain ⟨h1, h2⟩ := step_proceed_count hstep hb
          obtain ⟨h3, h4⟩ := ih r.state (s', cs) h2 hrest
          refine ⟨?_, h4⟩
          rw [List.count_append, h1, h3, List.countP_cons]
          omega

theorem bootloader_proceed_once_witness :
    (getverH initState "$GETVER BOOT" =
      .ok { initState with inBootloader := true, isActive := false }) ∧
    ({ initState with inBootloader := true, isActive := false } : TPState).inBootloader
        = true ∧
    (step initState "$GETVER BOOT" =
      .ok ⟨initState, ["$PROCEED"], [], ["Device is in bootloader, booting."]⟩) ∧
    (runAcc initState ["$GETVER BOOT", "$STATUS 0 0 0 5 4 0"] =
      .ok (bootThenStatusState, ["$PROCEED", "$GETVER"])) ∧
    ["$PROCEED", "$GETVER"].count "$PROCEED" =
      ["$GETVER BOOT", "$STATUS 0 0 0 5 4 0"].countP
        (fun m => strStarts m "$GETVER" && subOccurs "BOOT".data m.data) := by
  refine ⟨rfl, ?_, rfl, rfl, ?_⟩
  · exact (bootloader_proceed_once.1 initState "$GETVER BOOT"
      { initState with inBootloader := true, isActive := false } (by decide) rfl).1
  · have h := (bootloader_proceed_once.2.2 initState
      ["$GETVER BOOT", "$STATUS 0 0 0 5 4 0"]
      (bootThenStatusState, ["$PROCEED", "$GETVER"]) rfl rfl).1
    exact h

/-! ## C5: the firmware self-healing poll -/

/-- C5: after any successfully processed message, exactly one `$GETVER`
command is enqueued when the updated state is active with an unset (Python
falsy) firmware version or serial, and none otherwise. -/
theorem getver_poll_iff_identity_incomplete {s : TPState} {msg : String}
    {r : StepResult} (h : step s msg = .ok r) :
    r.cmds.count "$GETVER" =
      if r.state.isActive &&
         (pyFalsy r.state.firmwareSerial || pyFalsy r.state.firmwareVersion)
      then 1 else 0 := by
  obtain ⟨s1, evs, logs, hcore, hstate, hbfr, hcmds, hevs, hlogs⟩ := step_ok h
  rw [hcmds, List.count_append]
  by_cases hb : s1.inBootloader <;>
    by_cases hv : (r.state.isActive &&
      (pyFalsy r.state.firmwareSerial || pyFalsy r.state.firmwareVersion)) = true <;>
    simp [hb, hv, List.count_cons, List.count_nil]

theorem getver_poll_iff_identity_incomplete_witness :
    (step initState "$STATUS 0 0 0 5 4 0" =
      .ok ⟨bootThenStatusState, ["$GETVER"],  [],
           ["Software PLL locked for 4 satellites", "State -1 -> 0"]⟩) ∧
    (bootThenStatusState.isActive &&
      (pyFalsy bootThenStatusState.firmwareSerial ||
       pyFalsy bootThenStatusState.firmwareVersion)) = true ∧
    ["$GETVER"].count "$GETVER" = 1 := by
  refine ⟨rfl, by decide, ?_⟩
  have h := @getver_poll_iff_identity_incomplete initState "$STATUS 0 0 0 5 4 0"
    ⟨bootThenStatusState, ["$GETVER"], [],
     ["Software PLL locked for 4 satellites", "State -1 -> 0"]⟩ rfl
  exact h.trans (by decide)

/-! ## C6: firmware identity is last-writer-wins, not write-once -/

/-- The `if`-wrapper that clears the bootloader-pending flag, as a single
record update. -/
theorem clearBoot_proj (s1 : TPState) (b : Bool) :
    (if b then { s1 with inBootloader := false } else s1) =
    { s1 with inBootloader := !b && s1.inBootloader } := by
  cases b <;> cases s1 <;> simp

/-- C6 counterexample: after two non-BOOT `$GETVER` responses the firmware
identity holds the SECOND response's fields: the code overwrites the
already-set identity rather than treating it as write-once. -/
theorem firmware_identity_overwritten :
    (run initState ["$GETVER 2.0.1 a b c d SER1"] =
      .ok { initState with firmwareVersion := some "2.0.1",
                           firmwareSerial := some "SER1", isActive := true }) ∧
    (run initState ["$GETVER 2.0.1 a b c d SER1", "$GETVER 3.0.0 a b c d SER2"] =
      .ok { initState with firmwareVersion := some "3.0.0",
                           firmwareSerial := some "SER2", isActive := true }) ∧
    strStarts "$GETVER 3.0.0 a b c d SER2" "$GETVER" = true ∧
    subOccurs "BOOT".data "$GETVER 3.0.0 a b c d SER2".data = false ∧
    (some "2.0.1" : Option String) ≠ some "3.0.0" :=
  ⟨rfl, rfl, rfl, rfl, by decide⟩

/-- C6 (amended): only `$GETVER` responses touch the firmware identity
fields; a BOOT-containing one leaves them unchanged; and a non-BOOT one
overwrites both fields with fields 1 and 6 of the NEW message, whether or
not the identity was already set (last writer wins). -/
theorem firmware_identity_last_writer {s : TPState} {msg : String}
    {r : StepResult} (h : step s msg = .ok r) :
    (strStarts msg "$GETVER" = false →
      r.state.firmwareVersion = s.firmwareVersion ∧
      r.state.firmwareSerial = s.firmwareSerial)
  ∧ (strStarts msg "$GETVER" = true → subOccurs "BOOT".data msg.data = true →
      r.state.firmwareVersion = s.firmwareVersion ∧
      r.state.firmwareSerial = s.firmwareSerial)
  ∧ (strStarts msg "$GETVER" = true → subOccurs "BOOT".data msg.data = false →
      ∀ v ser, strAt (pySplit msg) 1 = .ok v → strAt (pySplit msg) 6 = .ok ser →
      r.state.firmwareVersion = some v ∧ r.state.firmwareSerial = some ser) := by
  refine ⟨fun hng => step_firmware h hng, ?_, ?_⟩
  · intro hg hbo
    obtain ⟨s1, evs, logs, hcore, hstate, hbfr, _, _, _⟩ := step_ok h
    rcases stepCore_cases hcore with
      ⟨_, s2, heq, hout⟩ | ⟨hng, _⟩ | ⟨hng, _⟩ | ⟨hng, _⟩ | ⟨hng, _⟩ |
      ⟨hng, _⟩ | ⟨hng, _⟩ | ⟨hng, _⟩ | ⟨hng, _⟩
    · rcases getverH_ok heq with ⟨_, hs2⟩ | ⟨hnb, _⟩
      · simp only [Prod.mk.injEq] at hout
        obtain ⟨rfl, rfl, rfl⟩ := hout
        rw [hstate, clearBoot_proj, hs2]
        simp
      · rw [hbo] at hnb
        cases hnb
    all_goals rw [hg] at hng; cases hng
  · intro hg hbo v ser hv hser
    obtain ⟨s1, evs, logs, hcore, hstate, hbfr, _, _, _⟩ := step_ok h
    rcases stepCore_cases hcore with
      ⟨_, s2, heq, hout⟩ | ⟨hng, _⟩ | ⟨hng, _⟩ | ⟨hng, _⟩ | ⟨hng, _⟩ |
      ⟨hng, _⟩ | ⟨hng, _⟩ | ⟨hng, _⟩ | ⟨hng, _⟩
    · rcases getverH_ok heq with ⟨hb, _⟩ | ⟨_, v', ser', hv', hser', hs2⟩
      · rw [hbo] at hb
        cases hb
      · rw [hv'] at hv
        rw [hser'] at hser
        injection hv with hv
        injection hser with hser
        simp only [Prod.mk.injEq] at hout
        obtain ⟨rfl, rfl, rfl⟩ := hout
        rw [hstate, clearBoot_proj, hs2]
        simp [hv, hser]
    all_goals rw [hg] at hng; cases hng

theorem firmware_identity_last_writer_witness :
    (step fwSetState "$GETVER 3.0.0 a b c d SER2" = .ok fwOverwriteRes) ∧
    fwOverwriteRes.state.firmwareVersion = some "3.0.0" ∧
    fwOverwriteRes.state.firmwareSerial = some "SER2" := by
  refine ⟨rfl, ?_, ?_⟩
  · exact ((@firmware_identity_last_writer fwSetState "$GETVER 3.0.0 a b c d SER2"
      fwOverwriteRes rfl).2.2 rfl rfl "3.0.0" "SER2" rfl rfl).1
  · exact ((@firmware_identity_last_writer fwSetState "$GETVER 3.0.0 a b c d SER2"
      fwOverwriteRes rfl).2.2 rfl rfl "3.0.0" "SER2" rfl rfl).2

/-! ## C8: repeated `$STATUS` with unchanged fields is silent -/

/-- Clearing an already-clear bootloader-pending flag is the identity. -/
theorem setBoot_self {B : TPState} (h : B.inBootloader = false) :
    ({ B with inBootloader := false } : TPState) = B := by
  cases B
  simp_all

/-- Re-storing values a state already holds is the identity. -/
theorem statusUpdate_self {B : TPState} {t p a : Bool} {hv n st : Int}
    (h1 : B.isActive = true) (h2 : B.holdoverSec = hv) (h3 : B.tenMhzBad = t)
    (h4 : B.onePpsBad = p) (h5 : B.antennaBad = a) (h6 : B.nrTrackedSats = n)
    (h7 : B.stateCode = st) :
    ({ B with isActive := true, holdoverSec := hv, tenMhzBad := t, onePpsBad := p,
              antennaBad := a, nrTrackedSats := n, stateCode := st } : TPState) = B := by
  cases B
  simp_all

/-- C8: processing a `$STATUS` message and then a second `$STATUS` message
that parses to the same field values produces no transition log lines on
the second processing and leaves the state exactly as after the first:
every comparison is edge-triggered against the stored value. -/
theorem status_repeat_idempotent {s : TPState} {msg1 msg2 : String}
    {p : Bool × Bool × Bool × Int × Int × Int} {r1 r2 : StepResult}
    (h1s : strStarts msg1 "$STATUS" = true) (h2s : strStarts msg2 "$STATUS" = true)
    (hp1 : statusParse msg1 = .ok p) (hp2 : statusParse msg2 = .ok p)
    (hst1 : step s msg1 = .ok r1) (hst2 : step r1.state msg2 = .ok r2) :
    r2.logs = [] ∧ r2.state = r1.state := by
  obtain ⟨hng, hnc, hnsat, hnw, hnsv, hnx, hnp⟩ := starts_status_guards h1s
  obtain ⟨hng2, hnc2, hnsat2, hnw2, hnsv2, hnx2, hnp2⟩ := starts_status_guards h2s
  obtain ⟨s1, evs, logs, hcore, hstate, hbfr, _, _, hlogs⟩ := step_ok hst1
  rcases stepCore_cases hcore with
    ⟨hg, _, _, _⟩ | ⟨_, hc, _⟩ | ⟨_, _, hc, _⟩ | ⟨_, _, _, hc, _⟩ |
    ⟨_, _, _, _, hc, _⟩ | ⟨_, _, _, _, _, hc, _⟩ | ⟨_, _, _, _, _, _, hc, _⟩ |
    ⟨_, _, _, _, _, _, _, _, s2, lg, heq, hout⟩ |
    ⟨_, _, _, _, _, _, _, hc, _⟩
  · rw [hng] at hg
    cases hg
  · rw [hnc] at hc
    cases hc
  · rw [hnsat] at hc
    cases hc
  · rw [hnw] at hc
    cases hc
  · rw [hnsv] at hc
    cases hc
  · rw [hnx] at hc
    cases hc
  · rw [hnp] at hc
    cases hc
  · -- first $STATUS processed
    obtain ⟨t, pp, a, hv, n, st, hparse, hpair⟩ := statusH_ok heq
    rw [hparse] at hp1
    injection hp1 with hp1
    subst hp1
    simp only [Prod.mk.injEq] at hpair
    obtain ⟨hs2, -⟩ := hpair
    simp only [Prod.mk.injEq] at hout
    obtain ⟨rfl, rfl, rfl⟩ := hout
    -- field values of the state after the first step
    have hA : r1.state = { s1 with inBootloader := !s1.inBootloader && s1.inBootloader } := by
      rw [hstate, clearBoot_proj]
    have hA1 : r1.state.isActive = true := by rw [hA, hs2]
    have hA2 : r1.state.holdoverSec = hv := by rw [hA, hs2]
    have hA3 : r1.state.tenMhzBad = t := by rw [hA, hs2]
    have hA4 : r1.state.onePpsBad = pp := by rw [hA, hs2]
    have hA5 : r1.state.antennaBad = a := by rw [hA, hs2]
    have hA6 : r1.state.nrTrackedSats = n := by rw [hA, hs2]
    have hA7 : r1.state.stateCode = st := by rw [hA, hs2]
    -- second step
    obtain ⟨s1', evs', logs', hcore', hstate', hbfr', _, _, hlogs'⟩ := step_ok hst2
    rcases stepCore_cases hcore' with
      ⟨hg, _, _, _⟩ | ⟨_, hc, _⟩ | ⟨_, _, hc, _⟩ | ⟨_, _, _, hc, _⟩ |
      ⟨_, _, _, _, hc, _⟩ | ⟨_, _, _, _, _, hc, _⟩ | ⟨_, _, _, _, _, _, hc, _⟩ |
      ⟨_, _, _, _, _, _, _, _, s2', lg', heq', hout'⟩ |
      ⟨_, _, _, _, _, _, _, hc, _⟩
    · rw [hng2] at hg
      cases hg
    · rw [hnc2] at hc
      cases hc
    · rw [hnsat2] at hc
      cases hc
    · rw [hnw2] at hc
      cases hc
    · rw [hnsv2] at hc
      cases hc
    · rw [hnx2] at hc
      cases hc
    · rw [hnp2] at hc
      cases hc
    · obtain ⟨t', pp', a', hv', n', st', hparse', hpair'⟩ := statusH_ok heq'
      rw [hparse'] at hp2
      injection hp2 with hp2
      simp only [Prod.mk.injEq] at hp2
      obtain ⟨rfl, rfl, rfl, rfl, rfl, rfl⟩ := hp2
      simp only [Prod.mk.injEq] at hpair'
      obtain ⟨hs2', hlg'⟩ := hpair'
      simp only [Prod.mk.injEq] at hout'
      obtain ⟨rfl, rfl, rfl⟩ := hout'
      have hlgnil : logs' = [] := by
        rw [hlg']
        simp [hA3, hA4, hA5, hA6, hA7]
      have hs1eq : s1' = r1.state := by
        rw [hs2']
        exact statusUpdate_self hA1 hA2 hA3 hA4 hA5 hA6 hA7
      have hbl : s1'.inBootloader = false := by
        rw [hs1eq]
        exact hbfr
      constructor
      · rw [hlogs', hbl, hlgnil]
        simp
      · rw [hstate', clearBoot_proj, hbl, hs1eq]
        simpa using setBoot_self hbfr
    · rw [h2s] at hc
      cases hc
  · rw [h1s] at hc
    cases hc

theorem status_repeat_idempotent_witness :
    (statusParse "$STATUS 0 0 0 5 4 0" = .ok (false, false, false, 5, 4, 0)) ∧
    (step initState "$STATUS 0 0 0 5 4 0" = .ok statusRes1) ∧
    (step statusRes1.state "$STATUS 0 0 0 5 4 0" = .ok statusRes2) ∧
    statusRes2.logs = [] ∧ statusRes2.state = statusRes1.state := by
  refine ⟨rfl, rfl, rfl, ?_, ?_⟩
  · exact (@status_repeat_idempotent initState "$STATUS 0 0 0 5 4 0"
      "$STATUS 0 0 0 5 4 0" (false, false, false, 5, 4, 0) statusRes1 statusRes2
      rfl rfl rfl rfl rfl rfl).1
  · exact (@status_repeat_idempotent initState "$STATUS 0 0 0 5 4 0"
      "$STATUS 0 0 0 5 4 0" (false, false, false, 5, 4, 0) statusRes1 statusRes2
      rfl rfl rfl rfl rfl rfl).2

/-! ## C9: the dispatched Sat event IS the stored table entry -/

theorem mapFind_mapInsert_self {κ α : Type} [DecidableEq κ]
    (m : List (κ × α)) (k : κ) (v : α) :
    mapFind (mapInsert m k v) k = some v := by
  induction m with
  | nil => simp [mapInsert, mapFind]
  | cons kv rest ih =>
    obtain ⟨k', v'⟩ := kv
    by_cases h : k' = k <;> simp [mapInsert, mapFind, h, ih]

theorem mem_values_mapInsert {κ α : Type} [DecidableEq κ]
    {m : List (κ × α)} {k : κ} {v x : α}
    (h : x ∈ (mapInsert m k v).map Prod.snd) : x = v ∨ x ∈ m.map Prod.snd := by
  induction m with
  | nil => simpa [mapInsert] using h
  | cons kv rest ih =>
    obtain ⟨k', v'⟩ := kv
    by_cases hk : k' = k
    · simp only [mapInsert, if_pos hk, List.map_cons, List.mem_cons] at h
      rcases h with h | h
      · left
        exact h
      · right
        exact List.mem_cons_of_mem _ h
    · simp only [mapInsert, if_neg hk, List.map_cons, List.mem_cons] at h
      rcases h with h | h
      · right
        exact h ▸ List.mem_cons_self _ _
      · rcases ih h with h | h
        · left
          exact h
        · right
          exact List.mem_cons_of_mem _ h

/-- Shape of the dict the `$SAT` branch builds, stores and dispatches. -/
theorem satDict_shape {s : TPState} {msg : String} {ch : Int} {d0 : PyDict}
    (h : satH s msg = .ok (ch, d0)) :
    mapFind (mapInsert d0 "type" (.strV "sat")) "type" = some (.strV "sat") ∧
    dictKeys (mapInsert d0 "type" (.strV "sat")) = satKeys := by
  obtain ⟨ch', sid, el, az, snr, ls, hls, hpair⟩ := satH_ok h
  simp only [Prod.mk.injEq] at hpair
  obtain ⟨rfl, rfl⟩ := hpair
  constructor
  · exact mapFind_mapInsert_self _ _ _
  · simp [mapInsert, dictKeys, satKeys]

/-- One step preserves the satellite-table entry invariant. -/
theorem step_sats_invariant {s : TPState} {m : String} {r : StepResult}
    (h : step s m = .ok r)
    (hs : ∀ d ∈ trackedSatsOf s,
      mapFind d "type" = some (.strV "sat") ∧ dictKeys d = satKeys) :
    ∀ d ∈ trackedSatsOf r.state,
      mapFind d "type" = some (.strV "sat") ∧ dictKeys d = satKeys := by
  obtain ⟨s1, evs, logs, hcore, hstate, _, _, _, _⟩ := step_ok h
  have hsats : r.state.sats = s1.sats := by
    rw [hstate, clearBoot_proj]
  intro d hd
  rw [trackedSatsOf, hsats] at hd
  rcases stepCore_sats hcore with heq | ⟨ch, d0, hsat, heq⟩
  · rw [heq] at hd
    exact hs d hd
  · rw [heq] at hd
    rcases mem_values_mapInsert hd with rfl | hd
    · exact satDict_shape hsat
    · exact hs d hd

/-- Run-level satellite-table entry invariant. -/
theorem run_sats_invariant {msgs : List String} {s s' : TPState}
    (h : run s msgs = .ok s')
    (hs : ∀ d ∈ trackedSatsOf s,
      mapFind d "type" = some (.strV "sat") ∧ dictKeys d = satKeys) :
    ∀ d ∈ trackedSatsOf s',
      mapFind d "type" = some (.strV "sat") ∧ dictKeys d = satKeys := by
  induction msgs generalizing s with
  | nil =>
    cases h
    exact hs
  | cons m ms ih =>
    unfold run at h
    split at h
    · cases h
    · rename_i r hstep
      exact ih h (step_sats_invariant hstep hs)

/-- C9: the Sat TypedEvent the dispatcher pushes to the sinks is the very
dict stored in the satellite table for that channel — both carry the extra
`type` = "sat" key on top of the data-model fields {satId, el, az, snr,
lastSeen, slotId}; consequently every element of `trackedSats` in any
reachable state carries those exact keys. -/
theorem sat_event_aliases_table_entry :
    (∀ (s : TPState) (m : String) (r : StepResult),
      strStarts m "$SAT" = true → step s m = .ok r →
      ∃ ch d, r.events = [d] ∧ mapFind r.state.sats ch = some d ∧
        mapFind d "type" = some (.strV "sat") ∧ dictKeys d = satKeys)
  ∧ (∀ (msgs : List String) (s' : TPState), run initState msgs = .ok s' →
      ∀ d ∈ trackedSatsOf s',
        mapFind d "type" = some (.strV "sat") ∧ dictKeys d = satKeys) := by
  constructor
  · intro s m r hm h
    obtain ⟨s1, evs, logs, hcore, hstate, _, _, hevs, _⟩ := step_ok h
    have hsats : r.state.sats = s1.sats := by
      rw [hstate, clearBoot_proj]
    rcases stepCore_cases hcore with
      ⟨hg, _, _, _⟩ | ⟨_, hc, _⟩ | ⟨_, _, _, ch, d0, hsat, hout⟩ | ⟨_, _, hc, _⟩ |
      ⟨_, _, hc, _⟩ | ⟨_, _, hc, _⟩ | ⟨_, _, hc, _⟩ | ⟨_, _, hc, _⟩ | ⟨_, _, hc, _⟩
    · rw [starts_sat_not_getver hm] at hg
      cases hg
    · rw [starts_sat_not_clock hm] at hc
      cases hc
    · simp only [Prod.mk.injEq] at hout
      obtain ⟨rfl, rfl, rfl⟩ := hout
      obtain ⟨hfind, hkeys⟩ := satDict_shape hsat
      refine ⟨ch, mapInsert d0 "type" (.strV "sat"), ?_, ?_, hfind, hkeys⟩
      · rw [hevs]
      · rw [hsats]
        simp [mapFind_mapInsert_self]
    all_goals rw [hm] at hc; cases hc
  · intro msgs s' h
    exact run_sats_invariant h (by simp [trackedSatsOf, initState])

theorem sat_event_aliases_table_entry_witness :
    (run initState ["$CLOCK 631152000 18 1", "$SAT 0 5 30 200 40"] =
      .ok clockThenSatState) ∧
    satDictW ∈ trackedSatsOf clockThenSatState ∧
    mapFind satDictW "type" = some (.strV "sat") ∧
    dictKeys satDictW = satKeys := by
  refine ⟨rfl, by decide, ?_, ?_⟩
  · exact (sat_event_aliases_table_entry.2
      ["$CLOCK 631152000 18 1", "$SAT 0 5 30 200 40"] clockThenSatState rfl
      satDictW (by decide)).1
  · exact (sat_event_aliases_table_entry.2
      ["$CLOCK 631152000 18 1", "$SAT 0 5 30 200 40"] clockThenSatState rfl
      satDictW (by decide)).2

/-! ## C10: `$SAT` before any `$CLOCK` is fatal -/

/-- C10: in any run from the initial state in which no `$CLOCK` message was
processed, the wallclock and leap-second fields still hold their
non-numeric placeholders, and processing any `$SAT` message then raises
(the `lastSeen` epoch-time computation fails), killing the dispatcher
loop. -/
theorem sat_requires_clock {msgs : List String} {s : TPState}
    (hrun : run initState msgs = .ok s)
    (hnc : ∀ m ∈ msgs, strStarts m "$CLOCK" = false) :
    s.wallclock = none ∧ s.leapSeconds = none ∧
    ∀ m, strStarts m "$SAT" = true → ∃ e, step s m = .error e := by
  obtain ⟨hw, hl⟩ := run_clockFields hrun hnc
  have hw0 : s.wallclock = none := hw
  have hl0 : s.leapSeconds = none := hl
  refine ⟨hw0, hl0, ?_⟩
  intro m hm
  cases hstep : step s m with
  | error e => exact ⟨e, rfl⟩
  | ok r =>
    exfalso
    obtain ⟨s1, evs, logs, hcore, _, _, _, _, _⟩ := step_ok hstep
    rcases stepCore_cases hcore with
      ⟨hg, _, _, _⟩ | ⟨_, hc, _⟩ | ⟨_, _, _, ch, d0, hsat, _⟩ | ⟨_, _, hc, _⟩ |
      ⟨_, _, hc, _⟩ | ⟨_, _, hc, _⟩ | ⟨_, _, hc, _⟩ | ⟨_, _, hc, _⟩ | ⟨_, _, hc, _⟩
    · rw [starts_sat_not_getver hm] at hg
      cases hg
    · rw [starts_sat_not_clock hm] at hc
      cases hc
    · obtain ⟨ch', sid, el, az, snr, ls, hls, _⟩ := satH_ok hsat
      simp [epochTime, hw0, hl0] at hls
    all_goals rw [hm] at hc; cases hc

theorem sat_requires_clock_witness :
    (run initState ["$STATUS 0 0 0 5 4 0"] = .ok bootThenStatusState) ∧
    bootThenStatusState.wallclock = none ∧
    bootThenStatusState.leapSeconds = none ∧
    step bootThenStatusState "$SAT 0 5 30 200 40" = .error "TypeError" := by
  refine ⟨rfl, ?_, ?_, rfl⟩
  · exact (@sat_requires_clock ["$STATUS 0 0 0 5 4 0"] bootThenStatusState
      rfl (by decide)).1
  · exact (@sat_requires_clock ["$STATUS 0 0 0 5 4 0"] bootThenStatusState
      rfl (by decide)).2.1

/-! ## C2: the `{:2x}` checksum rendering is space-padded, not zero-padded -/

/-- C2 (code bug): the checksum is indeed the XOR of the body bytes and the
output line has the `$<body>*<..>\n` shape, and for the specification
example the two lowercase hex digits appear (XOR = 0x4c ≥ 16); but the
format specification in the source is `{:2x}` — width 2 padded with a
SPACE — so for any body whose XOR is below 16 the rendered checksum is a
space followed by one hex digit, not two hex digits: body `"08"` has
XOR 8 and is written as `$08* 8\n`. -/
theorem nmea_checksum_width_bug :
    nmeaChksum "GPGGA,123519,4807.038,N,01131.000,E,1,08,,545.4,M,46.9,M,,," = 0x4c ∧
    formatNmeaMsg "GPGGA,123519,4807.038,N,01131.000,E,1,08,,545.4,M,46.9,M,,," =
      "$GPGGA,123519,4807.038,N,01131.000,E,1,08,,545.4,M,46.9,M,,,*4c\n" ∧
    nmeaChksum "08" = 8 ∧
    pyHexW2 8 = " 8" ∧
    formatNmeaMsg "08" = "$08* 8\n" ∧
    isLowerHexDigit ' ' = false :=
  ⟨by decide, rfl, by decide, rfl, rfl, rfl⟩

/-! ## C3: which events make the writers write -/

/-- C3 counterexample: a Sat event delivered to the NMEA writer does NOT
always produce zero output bytes.  In the reachable writer state obtained
by processing one Gps event (at time 50) and then a Sat event at time 120
(more than the 60-second ZDA interval after the initial `last_zda = 0`),
the Sat event triggers the write of a ZDA sentence, because the periodic
ZDA check runs before the message-type dispatch. -/
theorem nmea_sat_event_writes_zda :
    (nmeaWriterStep nmeaWInit 50 gpsEvW =
      ({ nmeaWInit with lastGpsMsg := some gpsEvW }, [.gga gpsEvW])) ∧
    mapGetD satDictW "type" (.strV "unknown") = .strV "sat" ∧
    (nmeaWriterStep { nmeaWInit with lastGpsMsg := some gpsEvW } 120 satDictW =
      (⟨120, some gpsEvW, 60⟩, [.zda gpsEvW])) ∧
    ([NmeaOut.zda gpsEvW] : List NmeaOut) ≠ [] :=
  ⟨rfl, rfl, rfl, by decide⟩

/-- C3 (amended): a Sat event delivered to the NMEA writer produces zero
output bytes UNLESS the periodic ZDA emission is due (a previous Gps
snapshot is retained and at least the ZDA interval has elapsed since the
last ZDA), in which case exactly the one ZDA sentence is written; a Gps
event delivered to the ephemeris (sat) writer always produces zero output
bytes. -/
theorem writer_quiescent_events :
    (∀ (st : NmeaWState) (now : Int) (msg : PyDict),
      mapGetD msg "type" (.strV "unknown") = .strV "sat" →
      zdaDue st now = false →
      (nmeaWriterStep st now msg).2 = [])
  ∧ (∀ (st : NmeaWState) (now : Int) (msg : PyDict) (g : PyDict),
      mapGetD msg "type" (.strV "unknown") = .strV "sat" →
      zdaDue st now = true → st.lastGpsMsg = some g →
      (nmeaWriterStep st now msg).2 = [.zda g])
  ∧ (∀ msg : PyDict, mapGetD msg "type" (.strV "unknown") = .strV "gps" →
      satWriterStep msg = []) := by
  refine ⟨?_, ?_, ?_⟩
  · intro st now msg ht hz
    unfold nmeaWriterStep
    rw [hz, ht]
    simp
  · intro st now msg g ht hz hg
    unfold nmeaWriterStep
    rw [hz, ht, hg]
    simp
  · intro msg ht
    unfold satWriterStep
    rw [ht]
    simp

theorem writer_quiescent_events_witness :
    zdaDue nmeaWInit 0 = false ∧
    (nmeaWriterStep nmeaWInit 0 satDictW).2 = [] ∧
    mapGetD gpsEvW "type" (.strV "unknown") = .strV "gps" ∧
    satWriterStep gpsEvW = [] := by
  refine ⟨rfl, ?_, rfl, ?_⟩
  · exact writer_quiescent_events.1 nmeaWInit 0 satDictW rfl rfl
  · exact writer_quiescent_events.2.2 gpsEvW rfl

/-! ## C7: the transport framing, chunk-boundary independent -/

theorem splitCharList_no_sep {sep : Char} {l : List Char} (h : sep ∉ l) :
    splitCharList sep l = [l] := by
  induction l with
  | nil => rfl
  | cons c cs ih =>
    have hc : ¬(c = sep) := fun hh => h (hh ▸ List.mem_cons_self c cs)
    rw [splitCharList, if_neg hc, ih (fun hm => h (List.mem_cons_of_mem _ hm))]

theorem splitCharList_append_sep {sep : Char} {xs : List Char} (ys : List Char)
    (h : sep ∉ xs) :
    splitCharList sep (xs ++ sep :: ys) = xs :: splitCharList sep ys := by
  induction xs with
  | nil => simp [splitCharList]
  | cons x xs ih =>
    have hx : ¬(x = sep) := fun hh => h (hh ▸ List.mem_cons_self x xs)
    rw [List.cons_append, splitCharList, if_neg hx,
        ih (fun hm => h (List.mem_cons_of_mem _ hm))]

/-- The character loop agrees with CR-splitting of the LF-stripped stream:
the completed messages are all pieces but the last, and the residue is the
last piece. -/
theorem procChars_splitCR : ∀ (cs cur : List Char), '\r' ∉ cur → '\n' ∉ cur →
    splitCharList '\r' (cur ++ stripLF cs) =
      (procChars cur cs).1 ++ [(procChars cur cs).2] := by
  intro cs
  induction cs with
  | nil =>
    intro cur hr _
    simp [stripLF, procChars, splitCharList_no_sep hr]
  | cons c cs ih =>
    intro cur hr hn
    by_cases hcr : c = '\r'
    · subst hcr
      rw [show stripLF ('\r' :: cs) = '\r' :: stripLF cs from by simp [stripLF],
          splitCharList_append_sep _ hr]
      have h0 := ih [] (by simp) (by simp)
      rw [List.nil_append] at h0
      rw [h0]
      simp [procChars]
    · by_cases hlf : c = '\n'
      · subst hlf
        rw [show stripLF ('\n' :: cs) = stripLF cs from by simp [stripLF]]
        rw [show procChars cur ('\n' :: cs) = procChars cur cs from by
          simp [procChars, hcr]]
        exact ih cur hr hn
      · rw [show stripLF (c :: cs) = c :: stripLF cs from by simp [stripLF, hlf],
            show cur ++ c :: stripLF cs = (cur ++ [c]) ++ stripLF cs from by simp,
            show procChars cur (c :: cs) = procChars (cur ++ [c]) cs from by
              simp [procChars, hcr, hlf]]
        exact ih (cur ++ [c])
          (by
            intro hm
            rcases List.mem_append.mp hm with hm | hm
            · exact hr hm
            · simp only [List.mem_singleton] at hm
              exact hcr hm.symm)
          (by
            intro hm
            rcases List.mem_append.mp hm with hm | hm
            · exact hn hm
            · simp only [List.mem_singleton] at hm
              exact hlf hm.symm)

/-- Scanning a concatenation of two byte strings equals scanning them in
sequence, threading the residue: chunk boundaries do not matter. -/
theorem procChars_append : ∀ (a b cur : List Char),
    procChars cur (a ++ b) =
      ((procChars cur a).1 ++ (procChars (procChars cur a).2 b).1,
       (procChars (procChars cur a).2 b).2) := by
  intro a
  induction a with
  | nil =>
    intro b cur
    simp [procChars]
  | cons c cs ih =>
    intro b cur
    by_cases h1 : c = '\r'
    · subst h1
      simp [procChars, ih]
    · by_cases h2 : c = '\n' <;> simp [procChars, h1, h2, ih]

/-- `data_received` over a chunk sequence forwards exactly what one scan of
the joined stream would: the per-chunk stripping and filtering commutes
with concatenation. -/
theorem uartRun_join : ∀ (chunks : List (List Char)) (cur : List Char),
    (uartRun cur chunks).1 =
      ((procChars cur chunks.flatten).1.map pyStrip).filter (fun m => !m.isEmpty) ∧
    (uartRun cur chunks).2 = (procChars cur chunks.flatten).2 := by
  intro chunks
  induction chunks with
  | nil =>
    intro cur
    simp [uartRun, procChars]
  | cons ch rest ih =>
    intro cur
    rw [show (ch :: rest).flatten = ch ++ rest.flatten from rfl]
    constructor
    · rw [show (uartRun cur (ch :: rest)).1 =
          ((procChars cur ch).1.map pyStrip).filter (fun m => !m.isEmpty) ++
            (uartRun (procChars cur ch).2 rest).1 from rfl]
      rw [procChars_append, (ih (procChars cur ch).2).1]
      simp [List.map_append, List.filter_append]
    · rw [show (uartRun cur (ch :: rest)).2 =
          (uartRun (procChars cur ch).2 rest).2 from rfl]
      rw [procChars_append, (ih (procChars cur ch).2).2]

/-- C7: over any sequence of raw byte chunks, the messages the transport
forwards to the dispatcher are exactly the joined input stream with LF
bytes discarded, split on CR terminators (the piece after the final CR
stays buffered), each piece stripped of surrounding whitespace, empty
results dropped — each forwarded once, in arrival order. -/
theorem uart_forwarding_spec (chunks : List (List Char)) :
    (uartRun [] chunks).1 = uartSpec chunks.flatten := by
  rw [(uartRun_join chunks []).1]
  unfold uartSpec
  have h2 := procChars_splitCR chunks.flatten [] (by simp) (by simp)
  rw [List.nil_append] at h2
  rw [h2]
  rw [show ((procChars [] chunks.flatten).1 ++ [(procChars [] chunks.flatten).2]).dropLast
        = (procChars [] chunks.flatten).1 from by
    simp]
